import Mathlib

/-!
Shallow embedding of `main.go` from the vault-metrics-ai repository.

Bytes are modelled as `Nat` (one list element per byte), so a byte payload is
a `List Nat` and its byte length is `List.length`.  The newline separator is
byte `10`; the token `"NaN"` is the byte sequence `[78, 97, 78]`.

External effects (environment variables, HTTP transport, JSON decoding) are
modelled as explicit inputs: an `Env` record for the four environment
variables (where `""` means unset, matching `os.Getenv`), transport oracles of
type `Except String _` for network calls, and a `parse` oracle standing for
`json.Unmarshal` into the response struct.  Each network-facing function also
returns the trace of requests it issued, so that "a call was never made"
is a provable statement.
-/

/-- The semantics of Go `bytes.Split(s, []byte("\n"))` restricted to the
single-byte separator 10: helper that prepends byte `b` to the first piece. -/
def consHead (b : Nat) : List (List Nat) → List (List Nat)
  | [] => [[b]]
  | l :: ls => (b :: l) :: ls

/-- Go `bytes.Split(metrics, []byte("\n"))` (line 51 / 136 of main.go):
splits a byte sequence at every newline byte; the empty input yields one
empty piece, exactly as in Go. -/
def splitOnNL : List Nat → List (List Nat)
  | [] => [[]]
  | b :: rest => if b = 10 then [] :: splitOnNL rest else consHead b (splitOnNL rest)

/-- Go `bytes.Join(pieces, []byte("\n"))` (line 58 / 139-140 of main.go). -/
def joinNL : List (List Nat) → List Nat
  | [] => []
  | [l] => l
  | l :: l2 :: ls => l ++ 10 :: joinNL (l2 :: ls)

/-- Whether a byte list starts with the three bytes of the literal `"NaN"`. -/
def startsWithNaN : List Nat → Bool
  | a :: b :: c :: _ => a == 78 && b == 97 && c == 78
  | _ => false

/-- Go `bytes.Contains(line, []byte("NaN"))` (line 54 of main.go): the
case-sensitive substring test for the token `"NaN"`. -/
def hasNaN : List Nat → Bool
  | [] => false
  | b :: rest => startsWithNaN (b :: rest) || hasNaN rest

/-- Go `filterNaNMetrics` (lines 50-59 of main.go): split on newlines, keep
the lines not containing `"NaN"`, rejoin with newlines. -/
def filterNaNMetrics (metrics : List Nat) : List Nat :=
  joinNL ((splitOnNL metrics).filter (fun l => !hasNaN l))

/-- First chunk built by `main` (lines 136-139 of main.go): the first
`floor(n/2)` lines of the payload, rejoined with newlines. -/
def firstHalf (filtered : List Nat) : List Nat :=
  joinNL ((splitOnNL filtered).take ((splitOnNL filtered).length / 2))

/-- Second chunk built by `main` (lines 136-140 of main.go): the remaining
lines of the payload, rejoined with newlines. -/
def secondHalf (filtered : List Nat) : List Nat :=
  joinNL ((splitOnNL filtered).drop ((splitOnNL filtered).length / 2))

/-- The partitioning decision of `main` (lines 134-140 of main.go): payloads
of more than 5000 bytes are split into the two half chunks, smaller payloads
are passed through as a single chunk. -/
def partition (filtered : List Nat) : List (List Nat) :=
  if filtered.length > 5000 then [firstHalf filtered, secondHalf filtered]
  else [filtered]

/-- The four environment variables read by main.go.  Go's `os.Getenv` returns
`""` both for unset and for empty variables, so each field is a `String` and
`""` means "not set". -/
structure Env where
  vaultAddr : String
  vaultToken : String
  llmUrl : String
  llmToken : String
deriving DecidableEq

/-- Go `getVaultMetricsURL` (lines 12-18 of main.go): default base address
`http://127.0.0.1:8200` when `VAULT_ADDR` is unset, then the fixed path. -/
def getVaultMetricsURL (env : Env) : String :=
  (if env.vaultAddr = "" then "http://127.0.0.1:8200" else env.vaultAddr)
    ++ "/v1/sys/metrics?format=prometheus"

/-- Go `getLLMAPIURL` (lines 20-27 of main.go): `none` models the
`os.Exit(1)` taken when `LLM_URL` is unset. -/
def getLLMAPIURL (env : Env) : Option String :=
  if env.llmUrl = "" then none else some env.llmUrl

/-- An HTTP response from the metrics endpoint: status code and raw body
bytes. -/
structure VaultResp where
  status : Nat
  body : List Nat
deriving DecidableEq

/-- Go `fetchVaultMetrics` (lines 29-48 of main.go).  `transport` is the
outcome of `client.Do` plus `ioutil.ReadAll`.  The second component is the
trace of request URLs actually issued, so the absence of a network side
effect is expressible.  The response status is never inspected: the body is
returned unparsed. -/
def fetchVaultMetrics (env : Env) (transport : Except String VaultResp) :
    Except String (List Nat) × List String :=
  if env.vaultToken = "" then
    (.error "VAULT_TOKEN environment variable not set", [])
  else
    match transport with
    | .error e => (.error e, [getVaultMetricsURL env])
    | .ok r => (.ok r.body, [getVaultMetricsURL env])

/-- One element of the `choices` array in the LLM response struct
(lines 104-110 of main.go). -/
structure LLMChoice where
  text : String
deriving DecidableEq

/-- The struct `json.Unmarshal` decodes the LLM response body into
(lines 104-110 of main.go). -/
structure LLMResp where
  choices : List LLMChoice
  result : String
deriving DecidableEq

/-- The response-extraction logic of `analyzeWithLLM` (lines 111-121 of
main.go): `parsed` is the outcome of `json.Unmarshal` (`none` = parse error)
and `raw` is the raw response body.  Go returns `Choices[0].Text` when the
choices array is non-empty and its first text is non-empty, else the
`result` field when non-empty, else the raw body. -/
def extractNarration (parsed : Option LLMResp) (raw : String) : String :=
  match parsed with
  | none => raw
  | some r =>
    match r.choices with
    | c :: _ =>
      if c.text ≠ "" then c.text
      else if r.result ≠ "" then r.result else raw
    | [] => if r.result ≠ "" then r.result else raw

/-- An HTTP response from the LLM endpoint: status code, status line text
(Go `resp.Status`), and raw body. -/
structure HttpResp where
  status : Nat
  statusText : String
  body : String
deriving DecidableEq

/-- Outcome of one `analyzeWithLLM` call: `exitNoUrl` models the
`os.Exit(1)` inside `getLLMAPIURL`; `err` models a returned error; `ok`
models a returned narration string. -/
inductive LLMOutcome where
  | exitNoUrl
  | err (e : String)
  | ok (s : String)
deriving DecidableEq

/-- Go `analyzeWithLLM` (lines 61-122 of main.go), with request transport
and JSON decoding as oracles.  Order is the source order: the URL lookup
(which exits the process when `LLM_URL` is unset) precedes the `LLM_TOKEN`
check, which precedes the transport, which precedes the status check. -/
def analyzeWithLLM (env : Env) (transport : Except String HttpResp)
    (parse : String → Option LLMResp) : LLMOutcome :=
  match getLLMAPIURL env with
  | none => .exitNoUrl
  | some _ =>
    if env.llmToken = "" then .err "LLM_TOKEN environment variable not set"
    else
      match transport with
      | .error e => .err e
      | .ok resp =>
        if resp.status ≠ 200 then
          .err ("LLM API error: " ++ resp.statusText ++ "\n" ++ resp.body)
        else .ok (extractNarration (parse resp.body) resp.body)

/-- Outcome of a whole run of `main` (lines 124-170 of main.go).  Every
constructor except `done` corresponds to a non-zero process exit. -/
inductive RunOutcome where
  | fetchError (e : String)
  | exitNoLlmUrl
  | llmError (label e : String)
  | done (outputs : List String)
deriving DecidableEq

/-- Go `main` (lines 124-170 of main.go).  `ftrans` is the metrics-endpoint
transport oracle, `ltrans` maps each narration request body (chunk) to its
transport outcome, `parse` is the JSON-decoding oracle.  The second
component is the ordered trace of chunks for which a narration call was
issued. -/
def runMain (env : Env) (ftrans : Except String VaultResp)
    (ltrans : List Nat → Except String HttpResp)
    (parse : String → Option LLMResp) : RunOutcome × List (List Nat) :=
  match (fetchVaultMetrics env ftrans).1 with
  | .error e => (.fetchError e, [])
  | .ok metrics =>
    let filtered := filterNaNMetrics metrics
    if filtered.length > 5000 then
      match analyzeWithLLM env (ltrans (firstHalf filtered)) parse with
      | .exitNoUrl => (.exitNoLlmUrl, [firstHalf filtered])
      | .err e => (.llmError "first half" e, [firstHalf filtered])
      | .ok a1 =>
        match analyzeWithLLM env (ltrans (secondHalf filtered)) parse with
        | .exitNoUrl => (.exitNoLlmUrl, [firstHalf filtered, secondHalf filtered])
        | .err e => (.llmError "second half" e, [firstHalf filtered, secondHalf filtered])
        | .ok a2 => (.done [a1, a2], [firstHalf filtered, secondHalf filtered])
    else
      match analyzeWithLLM env (ltrans filtered) parse with
      | .exitNoUrl => (.exitNoLlmUrl, [filtered])
      | .err e => (.llmError "metrics" e, [filtered])
      | .ok a => (.done [a], [filtered])

/-- Modelled from the spec: the claim for the Narrator speaks of "the first
non-empty choice text"; this scans the choices for the first one whose text
is non-empty.  It is the spec-side reading, used only to compare with the
source-side `extractNarration`. -/
def firstNonEmptyChoiceText : List LLMChoice → Option String
  | [] => none
  | c :: cs => if c.text ≠ "" then some c.text else firstNonEmptyChoiceText cs

theorem splitOnNL_ne_nil (s : List Nat) : splitOnNL s ≠ [] := by
  cases s with
  | nil => simp [splitOnNL]
  | cons b rest =>
    simp only [splitOnNL]
    split
    · simp
    · cases h : splitOnNL rest with
      | nil => simp [consHead]
      | cons l ls => simp [consHead]

theorem joinNL_cons_of_ne_nil (l : List Nat) (ls : List (List Nat)) (h : ls ≠ []) :
    joinNL (l :: ls) = l ++ 10 :: joinNL ls := by
  cases ls with
  | nil => exact absurd rfl h
  | cons l2 ls2 => rfl

theorem joinNL_consHead (b : Nat) (ls : List (List Nat)) (h : ls ≠ []) :
    joinNL (consHead b ls) = b :: joinNL ls := by
  cases ls with
  | nil => exact absurd rfl h
  | cons l ls2 =>
    cases ls2 with
    | nil => rfl
    | cons l2 ls3 => simp [consHead, joinNL]

theorem joinNL_splitOnNL (s : List Nat) : joinNL (splitOnNL s) = s := by
  induction s with
  | nil => rfl
  | cons b rest ih =>
    simp only [splitOnNL]
    split
    · next hb =>
      rw [joinNL_cons_of_ne_nil _ _ (splitOnNL_ne_nil rest), ih, hb]
      rfl
    · rw [joinNL_consHead _ _ (splitOnNL_ne_nil rest), ih]

theorem splitOnNL_of_no_newline (l : List Nat) (h : 10 ∉ l) : splitOnNL l = [l] := by
  induction l with
  | nil => rfl
  | cons b rest ih =>
    have hb : b ≠ 10 := by
      intro hb
      exact h (hb ▸ List.mem_cons_self b rest)
    have hrest : 10 ∉ rest := fun hm => h (List.mem_cons_of_mem b hm)
    simp only [splitOnNL, if_neg hb, ih hrest, consHead]

theorem splitOnNL_append_newline (l s : List Nat) (h : 10 ∉ l) :
    splitOnNL (l ++ 10 :: s) = l :: splitOnNL s := by
  induction l with
  | nil => simp [splitOnNL]
  | cons b rest ih =>
    have hb : b ≠ 10 := by
      intro hb
      exact h (hb ▸ List.mem_cons_self b rest)
    have hrest : 10 ∉ rest := fun hm => h (List.mem_cons_of_mem b hm)
    show splitOnNL (b :: (rest ++ 10 :: s)) = (b :: rest) :: splitOnNL s
    simp only [splitOnNL, if_neg hb]
    rw [ih hrest]
    rfl

theorem no_newline_of_mem_splitOnNL (s : List Nat) :
    ∀ l ∈ splitOnNL s, 10 ∉ l := by
  induction s with
  | nil =>
    intro l hl
    simp [splitOnNL] at hl
    simp [hl]
  | cons b rest ih =>
    intro l hl
    simp only [splitOnNL] at hl
    by_cases hb : b = 10
    · rw [if_pos hb] at hl
      rcases List.mem_cons.mp hl with h1 | h2
      · simp [h1]
      · exact ih l h2
    · rw [if_neg hb] at hl
      cases hsplit : splitOnNL rest with
      | nil => exact absurd hsplit (splitOnNL_ne_nil rest)
      | cons l0 ls0 =>
        rw [hsplit] at hl
        simp only [consHead] at hl
        rcases List.mem_cons.mp hl with h1 | h2
        · subst h1
          intro hmem
          rcases List.mem_cons.mp hmem with h3 | h4
          · exact hb h3.symm
          · exact ih l0 (hsplit ▸ List.mem_cons_self l0 ls0) h4
        · exact ih l (hsplit ▸ List.mem_cons_of_mem l0 h2)

theorem joinNL_append (l1 l2 : List (List Nat)) (h1 : l1 ≠ []) (h2 : l2 ≠ []) :
    joinNL (l1 ++ l2) = joinNL l1 ++ 10 :: joinNL l2 := by
  induction l1 with
  | nil => exact absurd rfl h1
  | cons a l1x ih =>
    cases hx : l1x with
    | nil =>
      subst hx
      simp only [List.singleton_append]
      rw [joinNL_cons_of_ne_nil _ _ h2]
      rfl
    | cons a2 l1y =>
      rw [← hx]
      have hne : l1x ≠ [] := by simp [hx]
      have happ : l1x ++ l2 ≠ [] := by
        simp [hx]
      rw [List.cons_append, joinNL_cons_of_ne_nil _ _ happ,
        joinNL_cons_of_ne_nil _ _ hne, ih hne, List.append_assoc]
      rfl

theorem splitOnNL_joinNL (ls : List (List Nat)) (hne : ls ≠ [])
    (hnl : ∀ l ∈ ls, 10 ∉ l) : splitOnNL (joinNL ls) = ls := by
  induction ls with
  | nil => exact absurd rfl hne
  | cons l ls2 ih =>
    cases hx : ls2 with
    | nil =>
      subst hx
      exact splitOnNL_of_no_newline l (hnl l (List.mem_cons_self l []))
    | cons l2 ls3 =>
      rw [← hx]
      have hne2 : ls2 ≠ [] := by simp [hx]
      rw [joinNL_cons_of_ne_nil _ _ hne2,
        splitOnNL_append_newline _ _ (hnl l (List.mem_cons_self l ls2)),
        ih hne2 (fun a ha => hnl a (List.mem_cons_of_mem l ha))]

theorem startsWithNaN_eq_false (a : Nat) (t : List Nat) (h : a ≠ 78) :
    startsWithNaN (a :: t) = false := by
  cases t with
  | nil => rfl
  | cons b t2 =>
    cases t2 with
    | nil => rfl
    | cons c t3 => simp [startsWithNaN, h]

theorem hasNaN_replicate97 (n : Nat) : hasNaN (List.replicate n 97) = false := by
  induction n with
  | zero => rfl
  | succ k ih =>
    rw [List.replicate_succ]
    simp only [hasNaN, ih, startsWithNaN_eq_false 97 _ (by decide), Bool.or_self]

theorem splitOnNL_replicate97 (n : Nat) :
    splitOnNL (List.replicate n 97) = [List.replicate n 97] := by
  refine splitOnNL_of_no_newline _ ?_
  intro h
  have := List.eq_of_mem_replicate h
  omega

theorem filterNaN_replicate97 (n : Nat) :
    filterNaNMetrics (List.replicate n 97) = List.replicate n 97 := by
  rw [filterNaNMetrics, splitOnNL_replicate97]
  simp [List.filter, hasNaN_replicate97, joinNL]

/-- Claim C3: the sanitizer retains a line iff it does not contain the
case-sensitive token `"NaN"`; retained lines keep their relative order
(they form a sublist of the input lines) and are rejoined with the newline
separator; the output line count is at most the input line count; and when
every line is dropped the result is the empty byte sequence. -/
theorem C3_sanitizer (m : List Nat) :
    filterNaNMetrics m = joinNL ((splitOnNL m).filter (fun l => !hasNaN l))
    ∧ List.Sublist ((splitOnNL m).filter (fun l => !hasNaN l)) (splitOnNL m)
    ∧ (∀ l, l ∈ splitOnNL m →
        (l ∈ (splitOnNL m).filter (fun l => !hasNaN l) ↔ hasNaN l = false))
    ∧ (splitOnNL (filterNaNMetrics m)).length ≤ (splitOnNL m).length
    ∧ ((splitOnNL m).filter (fun l => !hasNaN l) = [] → filterNaNMetrics m = []) := by
  refine ⟨rfl, List.filter_sublist _, ?_, ?_, ?_⟩
  · intro l hl
    simp [List.mem_filter, hl]
  · by_cases hk : (splitOnNL m).filter (fun l => !hasNaN l) = []
    · have h0 : filterNaNMetrics m = [] := by
        rw [filterNaNMetrics, hk]
        rfl
      rw [h0]
      have h1 : 0 < (splitOnNL m).length :=
        List.length_pos.mpr (splitOnNL_ne_nil m)
      simpa [splitOnNL] using h1
    · have hnl : ∀ l ∈ (splitOnNL m).filter (fun l => !hasNaN l), 10 ∉ l := by
        intro l hl
        exact no_newline_of_mem_splitOnNL m l (List.mem_filter.mp hl).1
      have hsplit : splitOnNL (filterNaNMetrics m)
          = (splitOnNL m).filter (fun l => !hasNaN l) :=
        splitOnNL_joinNL _ hk hnl
      rw [hsplit]
      exact List.Sublist.length_le (List.filter_sublist _)
  · intro hk
    rw [filterNaNMetrics, hk]
    rfl

/-- Witness for C3 at concrete inputs: for the payload `"NaN\nb"` the line
`"b"` is retained because it is `NaN`-free, and for the payload `"NaN"`
(whose every line is dropped) the sanitizer output is empty. -/
theorem C3_sanitizer_witness :
    ([98] ∈ (splitOnNL [78, 97, 78, 10, 98]).filter (fun l => !hasNaN l)
      ↔ hasNaN [98] = false)
    ∧ filterNaNMetrics [78, 97, 78] = [] :=
  ⟨(C3_sanitizer [78, 97, 78, 10, 98]).2.2.1 [98] (by decide),
   (C3_sanitizer [78, 97, 78]).2.2.2.2 (by decide)⟩

/-- Claim C9: the sanitizer is idempotent — applying `filterNaNMetrics` to
its own output returns that output unchanged. -/
theorem C9_sanitizer_idempotent (m : List Nat) :
    filterNaNMetrics (filterNaNMetrics m) = filterNaNMetrics m := by
  by_cases hk : (splitOnNL m).filter (fun l => !hasNaN l) = []
  · have h0 : filterNaNMetrics m = [] := by
      rw [filterNaNMetrics, hk]
      rfl
    rw [h0]
    rfl
  · have hnl : ∀ l ∈ (splitOnNL m).filter (fun l => !hasNaN l), 10 ∉ l := by
      intro l hl
      exact no_newline_of_mem_splitOnNL m l (List.mem_filter.mp hl).1
    have hsplit : splitOnNL (filterNaNMetrics m)
        = (splitOnNL m).filter (fun l => !hasNaN l) :=
      splitOnNL_joinNL _ hk hnl
    show joinNL ((splitOnNL (filterNaNMetrics m)).filter (fun l => !hasNaN l))
        = filterNaNMetrics m
    rw [hsplit, List.filter_eq_self.mpr (fun a ha => (List.mem_filter.mp ha).2)]
    rfl

theorem not_mem_replicate97 : ∀ n : Nat, (10 : Nat) ∉ List.replicate n (97 : Nat) := by
  intro n h
  have := List.eq_of_mem_replicate h
  omega

theorem splitOnNL_bigTwoLines :
    splitOnNL (List.replicate 2500 97 ++ 10 :: List.replicate 2501 97)
      = [List.replicate 2500 97, List.replicate 2501 97] := by
  rw [splitOnNL_append_newline _ _ (not_mem_replicate97 2500), splitOnNL_replicate97]

theorem length_bigTwoLines :
    (List.replicate 2500 (97 : Nat) ++ 10 :: List.replicate 2501 97).length = 5002 := by
  rw [List.length_append, List.length_cons, List.length_replicate, List.length_replicate]

/-- Counterexample to claim C1: the 5001-byte payload consisting of a single
newline-free line exceeds the threshold, so the partitioner returns the two
chunks `[[], payload]`; rejoining them with the line separator prepends a
spurious newline, so the payload is not reconstructed exactly. -/
theorem C1_partition_counterexample :
    (List.replicate 5001 97 : List Nat).length > 5000
    ∧ partition (List.replicate 5001 97) = [[], List.replicate 5001 97]
    ∧ joinNL (partition (List.replicate 5001 97)) ≠ List.replicate 5001 97 := by
  have hlen : (List.replicate 5001 97 : List Nat).length = 5001 :=
    List.length_replicate 5001 97
  have hpart : partition (List.replicate 5001 97) = [[], List.replicate 5001 97] := by
    rw [partition, if_pos (by rw [hlen]; omega), firstHalf, secondHalf,
      splitOnNL_replicate97]
    rfl
  refine ⟨by omega, hpart, ?_⟩
  rw [hpart]
  intro h
  have h2 : (10 : Nat) :: List.replicate 5001 97 = List.replicate 5001 97 := h
  have hc := congrArg List.length h2
  rw [List.length_cons] at hc
  omega

/-- Claim C1, amended: a payload of at most 5000 bytes yields exactly one
chunk equal to the whole payload.  A payload of more than 5000 bytes that
spans at least two lines yields exactly two chunks which, rejoined with the
line separator, reconstruct the payload exactly.  A payload of more than
5000 bytes consisting of a single line (no newline byte) instead yields an
empty first chunk and the whole payload as second chunk, so rejoining
inserts one spurious separator. -/
theorem C1_partition (p : List Nat) :
    (p.length ≤ 5000 → partition p = [p])
    ∧ (p.length > 5000 → 2 ≤ (splitOnNL p).length →
        (partition p).length = 2 ∧ joinNL (partition p) = p)
    ∧ (p.length > 5000 → (splitOnNL p).length = 1 → partition p = [[], p]) := by
  refine ⟨?_, ?_, ?_⟩
  · intro h
    rw [partition, if_neg (by omega)]
  · intro h h2
    have hmid : 1 ≤ (splitOnNL p).length / 2 := by omega
    have htake : (splitOnNL p).take ((splitOnNL p).length / 2) ≠ [] := by
      apply List.ne_nil_of_length_pos
      rw [List.length_take]
      omega
    have hdrop : (splitOnNL p).drop ((splitOnNL p).length / 2) ≠ [] := by
      apply List.ne_nil_of_length_pos
      rw [List.length_drop]
      omega
    have hpart : partition p = [firstHalf p, secondHalf p] := by
      rw [partition, if_pos h]
    refine ⟨by rw [hpart]; rfl, ?_⟩
    rw [hpart]
    show firstHalf p ++ 10 :: joinNL [secondHalf p] = p
    show firstHalf p ++ 10 :: secondHalf p = p
    rw [firstHalf, secondHalf, ← joinNL_append _ _ htake hdrop,
      List.take_append_drop, joinNL_splitOnNL]
  · intro h h1
    obtain ⟨l, hl⟩ : ∃ l, splitOnNL p = [l] := by
      cases hs : splitOnNL p with
      | nil => exact absurd hs (splitOnNL_ne_nil p)
      | cons a t =>
        cases t with
        | nil => exact ⟨a, rfl⟩
        | cons b t2 =>
          rw [hs] at h1
          simp at h1
    have hp : l = p := by
      have hj := joinNL_splitOnNL p
      rw [hl] at hj
      simpa [joinNL] using hj
    rw [partition, if_pos h, firstHalf, secondHalf, hl, hp]
    have hhalf : ([p] : List (List Nat)).length / 2 = 0 := by
      rw [List.length_singleton]
    rw [hhalf, List.take_zero, List.drop_zero]
    rfl

/-- Witness for the amended C1 at concrete inputs: a one-byte payload passes
through as a single chunk; a 5002-byte two-line payload splits into two
chunks that rejoin to the payload; a 5002-byte single-line payload yields
the degenerate chunks `[[], payload]`. -/
theorem C1_partition_witness :
    partition [97] = [[97]]
    ∧ (partition (List.replicate 2500 97 ++ 10 :: List.replicate 2501 97)).length = 2
    ∧ joinNL (partition (List.replicate 2500 97 ++ 10 :: List.replicate 2501 97))
        = List.replicate 2500 97 ++ 10 :: List.replicate 2501 97
    ∧ partition (List.replicate 5002 97) = [[], List.replicate 5002 97] := by
  have h1 := (C1_partition [97]).1 (by decide)
  have h2 := (C1_partition (List.replicate 2500 97 ++ 10 :: List.replicate 2501 97)).2.1
    (by rw [length_bigTwoLines]; omega) (by rw [splitOnNL_bigTwoLines]; exact le_refl 2)
  have h3 := (C1_partition (List.replicate 5002 97)).2.2
    (by rw [List.length_replicate]; omega) (by rw [splitOnNL_replicate97]; rfl)
  exact ⟨h1, h2.1, h2.2, h3⟩

/-- Claim C5: when a payload is split (more than 5000 bytes), the first
chunk is exactly the first `floor(N/2)` of its `N` lines rejoined with the
separator and the second chunk is the remaining lines rejoined — a
line-count bisection, not a byte-count one (the first part takes exactly
`floor(N/2)` line elements regardless of their byte sizes); when the
payload has at least two lines, splitting each chunk back into lines
recovers precisely those two line ranges. -/
theorem C5_partition_line_split (p : List Nat) (h : p.length > 5000) :
    partition p = [joinNL ((splitOnNL p).take ((splitOnNL p).length / 2)),
                   joinNL ((splitOnNL p).drop ((splitOnNL p).length / 2))]
    ∧ ((splitOnNL p).take ((splitOnNL p).length / 2)).length
        = (splitOnNL p).length / 2
    ∧ (2 ≤ (splitOnNL p).length →
        splitOnNL (firstHalf p) = (splitOnNL p).take ((splitOnNL p).length / 2)
        ∧ splitOnNL (secondHalf p) = (splitOnNL p).drop ((splitOnNL p).length / 2)) := by
  refine ⟨?_, ?_, ?_⟩
  · rw [partition, if_pos h]
    rfl
  · rw [List.length_take]
    exact Nat.min_eq_left (Nat.div_le_self _ _)
  · intro h2
    have htake : (splitOnNL p).take ((splitOnNL p).length / 2) ≠ [] := by
      apply List.ne_nil_of_length_pos
      rw [List.length_take]
      omega
    have hdrop : (splitOnNL p).drop ((splitOnNL p).length / 2) ≠ [] := by
      apply List.ne_nil_of_length_pos
      rw [List.length_drop]
      omega
    constructor
    · rw [firstHalf]
      exact splitOnNL_joinNL _ htake
        (fun l hl => no_newline_of_mem_splitOnNL p l (List.take_subset _ _ hl))
    · rw [secondHalf]
      exact splitOnNL_joinNL _ hdrop
        (fun l hl => no_newline_of_mem_splitOnNL p l (List.drop_subset _ _ hl))

/-- Witness for C5 at a concrete 5002-byte, two-line payload: the split is
by line count, the first chunk carries `floor(2/2) = 1` line, and the two
chunks split back into exactly the two line ranges. -/
theorem C5_partition_line_split_witness :
    partition (List.replicate 2500 97 ++ 10 :: List.replicate 2501 97)
      = [joinNL ((splitOnNL (List.replicate 2500 97 ++ 10 :: List.replicate 2501 97)).take
            ((splitOnNL (List.replicate 2500 97 ++ 10 :: List.replicate 2501 97)).length / 2)),
         joinNL ((splitOnNL (List.replicate 2500 97 ++ 10 :: List.replicate 2501 97)).drop
            ((splitOnNL (List.replicate 2500 97 ++ 10 :: List.replicate 2501 97)).length / 2))]
    ∧ splitOnNL (firstHalf (List.replicate 2500 97 ++ 10 :: List.replicate 2501 97))
        = (splitOnNL (List.replicate 2500 97 ++ 10 :: List.replicate 2501 97)).take
            ((splitOnNL (List.replicate 2500 97 ++ 10 :: List.replicate 2501 97)).length / 2)
    ∧ splitOnNL (secondHalf (List.replicate 2500 97 ++ 10 :: List.replicate 2501 97))
        = (splitOnNL (List.replicate 2500 97 ++ 10 :: List.replicate 2501 97)).drop
            ((splitOnNL (List.replicate 2500 97 ++ 10 :: List.replicate 2501 97)).length / 2) := by
  have h := C5_partition_line_split (List.replicate 2500 97 ++ 10 :: List.replicate 2501 97)
    (by rw [length_bigTwoLines]; omega)
  have h3 := h.2.2 (by rw [splitOnNL_bigTwoLines]; exact le_refl 2)
  exact ⟨h.1, h3.1, h3.2⟩

/-- Counterexample to claim C2: for the parsed body whose choices are
`[{text: ""}, {text: "x"}]` with empty `result`, the first non-empty choice
text exists and is `"x"`, yet the code returns the raw body: it only ever
inspects the text of choice 0. -/
theorem C2_narrator_counterexample :
    firstNonEmptyChoiceText [LLMChoice.mk "", LLMChoice.mk "x"] = some "x"
    ∧ extractNarration (some (LLMResp.mk [LLMChoice.mk "", LLMChoice.mk "x"] "")) "raw"
        = "raw"
    ∧ ("raw" : String) ≠ "x" := by
  refine ⟨?_, ?_, ?_⟩ <;> decide

/-- Claim C2, amended: if the body parses and the choices array is
non-empty and the text of its FIRST choice is non-empty, the narration is
that text; otherwise, if the body parses and the result field is non-empty,
the narration is the result field; otherwise (parse failure, or parse
success with no usable field) the narration is the raw body verbatim — and
in the code path with a 200 status this last case is a successful (`ok`)
return, not an error. -/
theorem C2_narrator_fallback :
    (∀ (r : LLMResp) (raw : String) (c : LLMChoice) (cs : List LLMChoice),
        r.choices = c :: cs → c.text ≠ "" → extractNarration (some r) raw = c.text)
    ∧ (∀ (r : LLMResp) (raw : String),
        (r.choices.headD (LLMChoice.mk "")).text = "" → r.result ≠ "" →
          extractNarration (some r) raw = r.result)
    ∧ (∀ (r : LLMResp) (raw : String),
        (r.choices.headD (LLMChoice.mk "")).text = "" → r.result = "" →
          extractNarration (some r) raw = raw)
    ∧ (∀ raw : String, extractNarration none raw = raw)
    ∧ (∀ (env : Env) (resp : HttpResp) (parse : String → Option LLMResp),
        env.llmUrl ≠ "" → env.llmToken ≠ "" → resp.status = 200 →
        parse resp.body = none →
          analyzeWithLLM env (.ok resp) parse = .ok resp.body) := by
  refine ⟨?_, ?_, ?_, ?_, ?_⟩
  · intro r raw c cs hc ht
    rw [extractNarration, hc]
    simp [ht]
  · intro r raw hh hr
    cases hc : r.choices with
    | nil =>
      rw [extractNarration, hc]
      simp [hr]
    | cons c cs =>
      rw [hc] at hh
      simp at hh
      rw [extractNarration, hc]
      simp [hh, hr]
  · intro r raw hh hr
    cases hc : r.choices with
    | nil =>
      rw [extractNarration, hc]
      simp [hr]
    | cons c cs =>
      rw [hc] at hh
      simp at hh
      rw [extractNarration, hc]
      simp [hh, hr]
  · intro raw
    rfl
  · intro env resp parse hu ht hs hp
    rw [analyzeWithLLM, getLLMAPIURL, if_neg hu]
    simp only [if_neg ht]
    rw [if_neg (by omega), hp]
    rfl

/-- Witness for the amended C2 at concrete inputs: a non-empty first choice
text wins; an empty first choice text falls back to a non-empty result
field; with neither usable the raw body is returned; an unparsable body is
returned verbatim; and in `analyzeWithLLM` an unparsable 200-status body is
an `ok` return of the raw body, not an error. -/
theorem C2_narrator_fallback_witness :
    extractNarration (some (LLMResp.mk [LLMChoice.mk "sum"] "res")) "raw" = "sum"
    ∧ extractNarration (some (LLMResp.mk [LLMChoice.mk ""] "res")) "raw" = "res"
    ∧ extractNarration (some (LLMResp.mk [] "")) "raw" = "raw"
    ∧ extractNarration none "raw" = "raw"
    ∧ analyzeWithLLM (Env.mk "" "t" "u" "k")
        (.ok (HttpResp.mk 200 "200 OK" "plain")) (fun _ => none) = .ok "plain" := by
  refine ⟨?_, ?_, ?_, ?_, ?_⟩
  · exact C2_narrator_fallback.1 (LLMResp.mk [LLMChoice.mk "sum"] "res") "raw"
      (LLMChoice.mk "sum") [] rfl (by decide)
  · exact C2_narrator_fallback.2.1 (LLMResp.mk [LLMChoice.mk ""] "res") "raw"
      (by decide) (by decide)
  · exact C2_narrator_fallback.2.2.1 (LLMResp.mk [] "") "raw" (by decide) (by decide)
  · exact C2_narrator_fallback.2.2.2.1 "raw"
  · exact C2_narrator_fallback.2.2.2.2 (Env.mk "" "t" "u" "k")
      (HttpResp.mk 200 "200 OK" "plain") (fun _ => none)
      (by decide) (by decide) rfl rfl

theorem fetch_ok (env : Env) (r : VaultResp) (hv : env.vaultToken ≠ "") :
    fetchVaultMetrics env (.ok r) = (.ok r.body, [getVaultMetricsURL env]) := by
  rw [fetchVaultMetrics, if_neg hv]

/-- Claim C8: when the transport succeeds, `fetchVaultMetrics` returns the
full response body unparsed whatever the status code of the response, one
request is issued at the configured URL, and with the base address unset
that URL is the local default address with path
`/v1/sys/metrics?format=prometheus`. -/
theorem C8_fetch_body_unparsed (env : Env) (r : VaultResp) (hv : env.vaultToken ≠ "") :
    (fetchVaultMetrics env (.ok r)).1 = .ok r.body
    ∧ (fetchVaultMetrics env (.ok r)).2 = [getVaultMetricsURL env]
    ∧ (env.vaultAddr = "" →
        getVaultMetricsURL env
          = "http://127.0.0.1:8200/v1/sys/metrics?format=prometheus") := by
  refine ⟨?_, ?_, ?_⟩
  · rw [fetch_ok env r hv]
  · rw [fetch_ok env r hv]
  · intro ha
    rw [getVaultMetricsURL, if_pos ha]
    decide

/-- Witness for C8 at a concrete input: the token is set, the base address
is unset, the metrics endpoint answers with status 500 and body `[1, 2]`;
fetch still returns `[1, 2]` and the request went to the default URL. -/
theorem C8_fetch_body_unparsed_witness :
    (fetchVaultMetrics (Env.mk "" "tok" "u" "k") (.ok (VaultResp.mk 500 [1, 2]))).1
        = .ok [1, 2]
    ∧ (fetchVaultMetrics (Env.mk "" "tok" "u" "k") (.ok (VaultResp.mk 500 [1, 2]))).2
        = [getVaultMetricsURL (Env.mk "" "tok" "u" "k")]
    ∧ getVaultMetricsURL (Env.mk "" "tok" "u" "k")
        = "http://127.0.0.1:8200/v1/sys/metrics?format=prometheus" := by
  have h := C8_fetch_body_unparsed (Env.mk "" "tok" "u" "k") (VaultResp.mk 500 [1, 2])
    (by decide)
  exact ⟨h.1, h.2.1, h.2.2 rfl⟩

/-- Claim C10: when the metrics-source credential is absent,
`fetchVaultMetrics` returns the configuration error with an empty request
trace — no outbound request is constructed or sent, whatever the transport
would have answered. -/
theorem C10_no_request_without_token (env : Env) (t : Except String VaultResp)
    (h : env.vaultToken = "") :
    fetchVaultMetrics env t
      = (.error "VAULT_TOKEN environment variable not set", []) := by
  rw [fetchVaultMetrics.eq_def, if_pos h]

/-- Witness for C10 at a concrete input: with every other value set and a
transport that would succeed, a missing `VAULT_TOKEN` yields the
configuration error and an empty request trace. -/
theorem C10_no_request_without_token_witness :
    fetchVaultMetrics (Env.mk "http://v" "" "u" "k") (.ok (VaultResp.mk 200 [1]))
      = (.error "VAULT_TOKEN environment variable not set", []) :=
  C10_no_request_without_token (Env.mk "http://v" "" "u" "k")
    (.ok (VaultResp.mk 200 [1])) rfl

/-- Claim C6: a response with a non-success status code makes the narrator
return an error (not a narration) whose message carries both the status
text and the raw response body, and a run whose narration calls all receive
that response ends in the corresponding fatal `llmError` outcome. -/
theorem C6_non_success_status (env : Env) (resp : HttpResp)
    (parse : String → Option LLMResp)
    (hu : env.llmUrl ≠ "") (ht : env.llmToken ≠ "") (hs : resp.status ≠ 200) :
    analyzeWithLLM env (.ok resp) parse
      = .err ("LLM API error: " ++ resp.statusText ++ "\n" ++ resp.body)
    ∧ (∀ vresp : VaultResp, env.vaultToken ≠ "" →
        ∃ label, (runMain env (.ok vresp) (fun _ => .ok resp) parse).1
          = .llmError label ("LLM API error: " ++ resp.statusText ++ "\n" ++ resp.body)) := by
  have herr : analyzeWithLLM env (.ok resp) parse
      = .err ("LLM API error: " ++ resp.statusText ++ "\n" ++ resp.body) := by
    rw [analyzeWithLLM, getLLMAPIURL, if_neg hu]
    simp only [if_neg ht]
    rw [if_pos hs]
  refine ⟨herr, ?_⟩
  intro vresp hv
  by_cases hlen : (filterNaNMetrics vresp.body).length > 5000
  · refine ⟨"first half", ?_⟩
    rw [runMain, fetch_ok env vresp hv]
    simp only [if_pos hlen, herr]
  · refine ⟨"metrics", ?_⟩
    rw [runMain, fetch_ok env vresp hv]
    simp only [if_neg hlen, herr]

/-- Witness for C6 at a concrete input: a 500-status response turns into
the error carrying status text and body, and the whole run fails with that
error. -/
theorem C6_non_success_status_witness :
    analyzeWithLLM (Env.mk "" "t" "u" "k")
        (.ok (HttpResp.mk 500 "500 Internal Server Error" "oops")) (fun _ => none)
      = .err ("LLM API error: " ++ "500 Internal Server Error" ++ "\n" ++ "oops")
    ∧ ∃ label, (runMain (Env.mk "" "t" "u" "k") (.ok (VaultResp.mk 200 [97]))
        (fun _ => .ok (HttpResp.mk 500 "500 Internal Server Error" "oops"))
        (fun _ => none)).1
      = .llmError label ("LLM API error: " ++ "500 Internal Server Error" ++ "\n" ++ "oops") := by
  have h := C6_non_success_status (Env.mk "" "t" "u" "k")
    (HttpResp.mk 500 "500 Internal Server Error" "oops") (fun _ => none)
    (by decide) (by decide) (by decide)
  exact ⟨h.1, h.2 (VaultResp.mk 200 [97]) (by decide)⟩

/-- Counterexample to claim C7: with the inference-endpoint address absent
AND the metrics credential absent, the run terminates with the fetch
configuration error, not with the missing-`LLM_URL` exit; no narration call
is ever issued and the absence of the inference-endpoint address is never
detected — so it is not checked eagerly before the stages that use it. -/
theorem C7_counterexample :
    (runMain (Env.mk "" "" "" "") (.ok (VaultResp.mk 200 [97]))
        (fun _ => .error "down") (fun _ => none)).1
      = .fetchError "VAULT_TOKEN environment variable not set"
    ∧ (runMain (Env.mk "" "" "" "") (.ok (VaultResp.mk 200 [97]))
        (fun _ => .error "down") (fun _ => none)).1 ≠ .exitNoLlmUrl
    ∧ (runMain (Env.mk "" "" "" "") (.ok (VaultResp.mk 200 [97]))
        (fun _ => .error "down") (fun _ => none)).2 = [] := by
  refine ⟨?_, ?_, ?_⟩ <;> decide

/-- Claim C7, amended: the missing inference-endpoint address is checked
lazily, at the start of each narration call — before the bearer-credential
check and before any narration request transport — and when it is absent
the process terminates immediately there; so a run whose fetch succeeds
terminates at its first narration call (exactly one narration call in the
trace), while a run whose fetch fails never detects the absence. -/
theorem C7_llm_url_check (env : Env) (t : Except String HttpResp)
    (parse : String → Option LLMResp) (h : env.llmUrl = "") :
    analyzeWithLLM env t parse = .exitNoUrl
    ∧ (∀ (vresp : VaultResp) (ltrans : List Nat → Except String HttpResp),
        env.vaultToken ≠ "" →
          (runMain env (.ok vresp) ltrans parse).1 = .exitNoLlmUrl
          ∧ (runMain env (.ok vresp) ltrans parse).2.length = 1) := by
  have hx : ∀ t2 : Except String HttpResp, analyzeWithLLM env t2 parse = .exitNoUrl := by
    intro t2
    rw [analyzeWithLLM.eq_def, getLLMAPIURL, if_pos h]
  refine ⟨hx t, ?_⟩
  intro vresp ltrans hv
  by_cases hlen : (filterNaNMetrics vresp.body).length > 5000
  · constructor
    · rw [runMain, fetch_ok env vresp hv]
      simp only [if_pos hlen, hx]
    · rw [runMain, fetch_ok env vresp hv]
      simp only [if_pos hlen, hx, List.length_singleton]
  · constructor
    · rw [runMain, fetch_ok env vresp hv]
      simp only [if_neg hlen, hx]
    · rw [runMain, fetch_ok env vresp hv]
      simp only [if_neg hlen, hx, List.length_singleton]

/-- Witness for the amended C7 at a concrete input: with `LLM_URL` unset
but the fetch succeeding, every narration attempt exits at the URL check,
the run ends in the missing-URL exit, and exactly one narration call was
issued. -/
theorem C7_llm_url_check_witness :
    analyzeWithLLM (Env.mk "" "t" "" "k") (.error "x") (fun _ => none) = .exitNoUrl
    ∧ (runMain (Env.mk "" "t" "" "k") (.ok (VaultResp.mk 200 [97]))
        (fun _ => .error "x") (fun _ => none)).1 = .exitNoLlmUrl
    ∧ (runMain (Env.mk "" "t" "" "k") (.ok (VaultResp.mk 200 [97]))
        (fun _ => .error "x") (fun _ => none)).2.length = 1 := by
  have h := C7_llm_url_check (Env.mk "" "t" "" "k") (.error "x") (fun _ => none) rfl
  have h2 := h.2 (VaultResp.mk 200 [97]) (fun _ => .error "x") (by decide)
  exact ⟨h.1, h2.1, h2.2⟩

/-- Claim C4: when the payload is split into two chunks and the narration
of the first chunk fails, the run ends with exactly that first failure and
the narration trace contains only the first chunk — the second narration
call is never issued. -/
theorem C4_fail_fast (env : Env) (vresp : VaultResp)
    (ltrans : List Nat → Except String HttpResp) (parse : String → Option LLMResp)
    (e : String) (hv : env.vaultToken ≠ "")
    (hlen : (filterNaNMetrics vresp.body).length > 5000)
    (h1 : analyzeWithLLM env (ltrans (firstHalf (filterNaNMetrics vresp.body))) parse
        = .err e) :
    runMain env (.ok vresp) ltrans parse
      = (.llmError "first half" e, [firstHalf (filterNaNMetrics vresp.body)]) := by
  rw [runMain, fetch_ok env vresp hv]
  simp only [if_pos hlen, h1]

/-- Witness for C4 at a concrete input: a 5001-byte NaN-free payload is
split, the first narration transport fails with `"boom"`, and the run ends
with that failure having issued exactly one narration call. -/
theorem C4_fail_fast_witness :
    runMain (Env.mk "" "t" "u" "k") (.ok (VaultResp.mk 200 (List.replicate 5001 97)))
        (fun _ => .error "boom") (fun _ => none)
      = (.llmError "first half" "boom",
         [firstHalf (filterNaNMetrics (List.replicate 5001 97))]) := by
  apply C4_fail_fast
  · decide
  · rw [filterNaN_replicate97, List.length_replicate]
    omega
  · decide
